import Mathlib

/-!
Verification of the live-update relay subsystem of `rspack-dev-server`.

The definitions below are a shallow embedding of the relay code:
* the Host/Origin validation gate (`Server.isHostAllowed`, `Server.isValidHost`,
  `Server.isSameOrigin` in the server source),
* the broadcast/diff engine (`Server.sendStats`, `Server.sendMessage`),
* the websocket transport's connection registry and heartbeat
  (`WebsocketServer` constructor),
* the client reconnection logic (`client-src/socket.ts`) and the client's
  `warnings` message handler (`client-src/index.ts`).

External collaborators (Node's legacy `url.parse` hostname extraction and the
`ipaddr.js` address validators) are modelled as an explicit record of functions
(`ExternalFns`); theorems quantify over them, and a concrete instance faithful
to the real libraries on the inputs that appear in concrete instances is
provided for evaluation.
-/

namespace RDS

/-- A primitive JavaScript value. -/
inductive JsPrim where
  | undefined
  | null
  | bool (b : Bool)
  | num (n : Int)
  | str (s : String)
deriving Repr, DecidableEq

/-- A JavaScript runtime value as far as the relay protocol observes it: a
primitive, an array, or a plain object one level deep.  Build warnings and
errors are opaque objects produced by the build pipeline and carried through
unchanged by the relay; they are modelled as opaque atoms inside arrays. -/
inductive JsVal where
  | prim (p : JsPrim)
  | arr (xs : List JsPrim)
  | obj (fields : List (String × JsPrim))
deriving Repr, DecidableEq

/-- The JavaScript `undefined` value. -/
abbrev jsUndefined : JsVal := .prim .undefined

/-- A JavaScript string value. -/
abbrev jsStr (s : String) : JsVal := .prim (.str s)

/-- A JavaScript boolean value. -/
abbrev jsBool (b : Bool) : JsVal := .prim (.bool b)

/-- JavaScript truthiness of a primitive (`""`, `0`, `null`, `undefined` and
`false` are falsy). -/
def jsPrimTruthy : JsPrim → Bool
  | .undefined => false
  | .null => false
  | .bool b => b
  | .num n => n != 0
  | .str s => s != ""

/-- JavaScript truthiness of a `JsVal` (arrays and objects are always
truthy). -/
def jsTruthy : JsVal → Bool
  | .prim p => jsPrimTruthy p
  | .arr _ => true
  | .obj _ => true

/-- JavaScript property access `v[k]` on a plain object; yields `undefined`
for non-objects and absent keys. -/
def jsGet (v : JsVal) (k : String) : JsPrim :=
  match v with
  | .obj fields =>
    match fields.find? (fun f => f.1 == k) with
    | some f => f.2
    | none => .undefined
  | _ => .undefined

/-- Line terminators that the `.` of a JavaScript regular expression does not
match. -/
def isLineTerminator (c : Char) : Bool :=
  c == '\n' || c == '\r' || c == Char.ofNat 0x2028 || c == Char.ofNat 0x2029

/-- `startsWithChars cs ds` : `ds` is a prefix of `cs` (character lists). -/
def startsWithChars : List Char → List Char → Bool
  | _, [] => true
  | [], _ :: _ => false
  | c :: cs, d :: ds => c == d && startsWithChars cs ds

/-- JavaScript `s.startsWith(p)`. -/
def strStartsWith (s p : String) : Bool :=
  startsWithChars s.data p.data

/-- JavaScript `s.endsWith(p)`. -/
def strEndsWith (s p : String) : Bool :=
  startsWithChars s.data.reverse p.data.reverse

/-- JavaScript `s.slice(n)` for a non-negative character count. -/
def strDrop (s : String) (n : Nat) : String :=
  ⟨s.data.drop n⟩

/-- Matcher for the `.+-extension:` alternative of `DEFAULT_ALLOWED_PROTOCOLS`
after at least one character has been consumed by `.+`: at each position either
the remainder starts with `-extension:` or one more non-line-terminator
character is consumed. -/
def extensionTail : List Char → Bool
  | [] => false
  | c :: cs =>
    startsWithChars (c :: cs) "-extension:".data ||
    (!isLineTerminator c && extensionTail cs)

/-- The constant `DEFAULT_ALLOWED_PROTOCOLS = /^(file|.+-extension):/i` of the
server source (line 153): values using a small set of non-network protocol
schemes are always allowed.  Case-insensitivity is realised by lowercasing. -/
def defaultAllowedProtocolsTest (s : String) : Bool :=
  let cs := s.data.map Char.toLower
  startsWithChars cs "file:".data ||
  (match cs with
   | [] => false
   | c :: rest => !isLineTerminator c && extensionTail rest)

/-- Matcher for the `.+:` part of `/^(.+:)?\/\//` after at least one character
has been consumed by `.+`. -/
def schemeTail : List Char → Bool
  | [] => false
  | c :: cs =>
    (c == ':' && startsWithChars cs ['/', '/']) ||
    (!isLineTerminator c && schemeTail cs)

/-- The test `/^(.+:)?\/\//.test(header)` used by `isValidHost` and
`isSameOrigin` to decide whether a header value already carries a scheme or
protocol-relative slashes before being handed to the url parser. -/
def hasSchemeSlashesTest (s : String) : Bool :=
  startsWithChars s.data ['/', '/'] ||
  (match s.data with
   | [] => false
   | c :: rest => !isLineTerminator c && schemeTail rest)

/-- External collaborators of the validator, out of scope of the relay itself:
the hostname extraction of Node's legacy `url.parse(input, false, true)` and
the `ipaddr.js` IPv4/IPv6 validity checks.  Theorems quantify over this
record. -/
structure ExternalFns where
  urlParseHostname : String → Option String
  ipv4IsValid : String → Bool
  ipv6IsValid : String → Bool

/-- The runtime value of `options.client.webSocketURL`: a URL string before
normalization, or (always, after `normalizeOptions` ran) an object whose
`hostname` field may be set.  Only the hostname field is observed by the
validator's intent; the remaining fields do not influence any claim. -/
inductive WebSocketURLValue where
  | str (s : String)
  | obj (hostname : Option String)
deriving Repr, DecidableEq

/-- JavaScript strict equality `webSocketURL === value` against a string
`value`: true only when `webSocketURL` itself is that string; an object is
never strictly equal to a string. -/
def WebSocketURLValue.strictEqString : WebSocketURLValue → String → Bool
  | .str s, v => s == v
  | .obj _, _ => false

/-- The slice of `options.client` observed by the relay (`ClientConfiguration`
in the source): `progress`, `reconnect`, `overlay` are carried as raw values,
`webSocketURL` as above. -/
structure ClientConfiguration where
  progress : JsVal := jsUndefined
  reconnect : JsVal := jsUndefined
  overlay : JsVal := jsUndefined
  webSocketURL : Option WebSocketURLValue := none
deriving Repr, DecidableEq

/-- The normalized `options.allowedHosts`: `'all'`, `'auto'`, or an array of
host strings. -/
inductive AllowedHosts where
  | all
  | auto
  | list (hosts : List String)
deriving Repr, DecidableEq

/-- The slice of the normalized server options observed by the relay
subsystem. `client = none` models a falsy `options.client`. -/
structure Options where
  allowedHosts : AllowedHosts
  host : Option String := none
  client : Option ClientConfiguration := none
  hot : JsVal := jsUndefined
  liveReload : JsVal := jsUndefined
deriving Repr, DecidableEq

/-- `Server.isHostAllowed(value)` (server source lines 2521-2564): wildcard
`'all'` short-circuits; a non-empty allow-list is scanned for an exact match
or a `.`-prefixed suffix-or-exact-domain wildcard match; finally, when
`options.client.webSocketURL` is defined the source returns
`webSocketURL === value` — the strict comparison of the whole `webSocketURL`
value (not its `hostname` field) against the string `value`, exactly as
written in the source. -/
def isHostAllowed (opts : Options) (value : String) : Bool :=
  if opts.allowedHosts = AllowedHosts.all then
    true
  else
    let inList :=
      match opts.allowedHosts with
      | .list hosts =>
        hosts.any (fun allowedHost =>
          allowedHost == value ||
          (strStartsWith allowedHost "." &&
            (value == strDrop allowedHost 1 || strEndsWith value allowedHost)))
      | _ => false
    if inList then
      true
    else
      match opts.client with
      | some client =>
        match client.webSocketURL with
        | some wsURL => wsURL.strictEqString value
        | none => false
      | none => false

/-- Inbound request headers: a partial map from lower-cased header names to
their string values (`Record<string, string | undefined>`). -/
def HeadersT : Type := String → Option String

/-- The header value handed to the url parser by `isValidHost`: headers
without a scheme are prefixed with `//` so the parser treats them as an
authority. -/
def hostnameFromHeader (ext : ExternalFns) (header : String) : Option String :=
  ext.urlParseHostname
    (if hasSchemeSlashesTest header then header else "//" ++ header)

/-- `Server.isValidHost(headers, headerToCheck, validateHost = true)` (server
source lines 2566-2623).  An absent or empty header fails; allowed protocol
schemes pass; the hostname is extracted by the url parser; `isHostAllowed`
is consulted; in strict mode literal IPv4/IPv6 addresses, `localhost`,
`*.localhost` subdomains and the listening host are auto-allowed. -/
def isValidHost (ext : ExternalFns) (opts : Options) (headers : HeadersT)
    (headerToCheck : String) (validateHost : Bool := true) : Bool :=
  if opts.allowedHosts = AllowedHosts.all then
    true
  else
    match headers headerToCheck with
    | none => false
    | some header =>
      if header == "" then
        false
      else if defaultAllowedProtocolsTest header then
        true
      else
        match hostnameFromHeader ext header with
        | none => false
        | some hostname =>
          if isHostAllowed opts hostname then
            true
          else if validateHost then
            ext.ipv4IsValid hostname || ext.ipv6IsValid hostname ||
            hostname == "localhost" || strEndsWith hostname ".localhost" ||
            opts.host == some hostname
          else
            false

/-- `Server.isSameOrigin(headers)` (server source lines 2625-2679).  Inside
the non-wildcard branch every `return this.options.allowedHosts === 'all'`
of the source evaluates to `false` and is written so. -/
def isSameOrigin (ext : ExternalFns) (opts : Options) (headers : HeadersT) :
    Bool :=
  if opts.allowedHosts = AllowedHosts.all then
    true
  else
    match headers "origin" with
    | none => false
    | some originHeader =>
      if originHeader == "" then
        false
      else if defaultAllowedProtocolsTest originHeader then
        true
      else
        match ext.urlParseHostname originHeader with
        | none => false
        | some origin =>
          if isHostAllowed opts origin then
            true
          else
            match headers "host" with
            | none => false
            | some hostHeader =>
              if hostHeader == "" then
                false
              else if defaultAllowedProtocolsTest hostHeader then
                true
              else
                match hostnameFromHeader ext hostHeader with
                | none => false
                | some host =>
                  if isHostAllowed opts host then
                    true
                  else
                    origin == host

/-- The message envelope `{ type, data?, params? }` — the unit of
server-to-client communication; each transport frame is the JSON encoding of
one complete envelope. -/
structure Envelope where
  type : String
  data : JsVal := jsUndefined
  params : JsVal := jsUndefined
deriving Repr, DecidableEq

/-- A logical connection as the server observes it: `readyState` uses the
common numeric convention of both backends (`0` connecting, `1` open, `2`
closing, `3` closed); `isAlive` is the heartbeat liveness flag set by the
native-socket backend. -/
structure ClientConn where
  id : Nat
  readyState : Nat
  isAlive : Bool := true
deriving Repr, DecidableEq

/-- `Server.sendMessage(clients, type, data, params)` (server source lines
2681-2694): for each client of the given array, the JSON envelope is sent only
when `client.readyState === 1`; any other state is silently skipped.  The
result is the list of `(client id, envelope)` frames actually handed to the
transport, in iteration order. -/
def sendMessage (clients : List ClientConn) (type : String)
    (data : JsVal := jsUndefined) (params : JsVal := jsUndefined) :
    List (Nat × Envelope) :=
  match clients with
  | [] => []
  | client :: rest =>
    if client.readyState = 1 then
      (client.id, { type := type, data := data, params := params }) ::
        sendMessage rest type data params
    else
      sendMessage rest type data params

/-- The build-result summary consumed by the diff engine
(`StatsCompilation`): a content hash and optional error/warning arrays, each
possibly `undefined`. -/
structure StatsCompilation where
  hash : Option String := none
  errors : Option (List JsPrim) := none
  warnings : Option (List JsPrim) := none
deriving Repr, DecidableEq

/-- The JavaScript test `!stats.errors || stats.errors.length === 0`:
`undefined` or an empty array. -/
def absentOrEmpty : Option (List JsPrim) → Bool
  | none => true
  | some l => l.length == 0

/-- The JavaScript test `stats.errors?.length > 0` (`undefined > 0` is
false). -/
def lengthPositive : Option (List JsPrim) → Bool
  | none => false
  | some l => decide (0 < l.length)

/-- `stats.hash` as the `data` of a `hash` envelope (`undefined` when the
summary carries no hash). -/
def hashData : Option String → JsVal
  | none => jsUndefined
  | some s => jsStr s

/-- The `error` envelope sent to a connection that fails the Host/Origin
gate. -/
def errorEnvelope : Envelope :=
  { type := "error", data := jsStr "Invalid Host/Origin header" }

/-- The `still-ok` envelope. -/
def stillOkEnvelope : Envelope := { type := "still-ok" }

/-- The `ok` envelope. -/
def okEnvelope : Envelope := { type := "ok" }

/-- The `hash` envelope carrying the new hash. -/
def hashEnvelope (h : Option String) : Envelope :=
  { type := "hash", data := hashData h }

/-- The `warnings` envelope of a summary: carries the warnings array and,
when errors are also present, the `{ preventReloading: true }` params. -/
def warningsEnvelope (stats : StatsCompilation) : Envelope :=
  { type := "warnings",
    data := JsVal.arr (stats.warnings.getD []),
    params :=
      if lengthPositive stats.errors then
        JsVal.obj [("preventReloading", .bool true)]
      else
        jsUndefined }

/-- The `errors` envelope of a summary. -/
def errorsEnvelope (stats : StatsCompilation) : Envelope :=
  { type := "errors", data := JsVal.arr (stats.errors.getD []) }

/-- `Server.sendStats(clients, stats, force)` (server source lines
2697-2754), as a pure function of the recorded `currentHash`: returns the
`currentHash` after the call and the envelopes handed to `sendMessage` for
the given clients, in order.  With `force` false, empty-or-absent errors and
warnings and an unchanged hash, only `still-ok` is emitted; otherwise the
hash is recorded, a `hash` envelope is emitted, then `warnings`/`errors`
or a plain `ok`. -/
def sendStats (currentHash : Option String) (stats : Option StatsCompilation)
    (force : Bool) : Option String × List Envelope :=
  match stats with
  | none => (currentHash, [])
  | some stats =>
    let shouldEmit :=
      !force &&
      absentOrEmpty stats.errors &&
      absentOrEmpty stats.warnings &&
      currentHash == stats.hash
    if shouldEmit then
      (currentHash, [stillOkEnvelope])
    else if lengthPositive stats.errors || lengthPositive stats.warnings then
      (stats.hash,
        hashEnvelope stats.hash ::
          ((if lengthPositive stats.warnings then [warningsEnvelope stats]
            else []) ++
           (if lengthPositive stats.errors then [errorsEnvelope stats]
            else [])))
    else
      (stats.hash, [hashEnvelope stats.hash, okEnvelope])

/-- The Host/Origin gate of `Server.createWebSocketServer`'s `connection`
handler (server source lines 2261-2288): a connection fails when no headers
were passed, or `isValidHost(headers, 'host')`, `isValidHost(headers,
'origin')` or `isSameOrigin(headers)` is false. -/
def failsValidation (ext : ExternalFns) (opts : Options)
    (headers : Option HeadersT) : Bool :=
  match headers with
  | none => true
  | some h =>
    !isValidHost ext opts h "host" true ||
    !isValidHost ext opts h "origin" true ||
    !isSameOrigin ext opts h

/-- The observable outcome of dispatching one transport `connection` event:
the connection registry (`BaseServer.clients`, as ids) afterwards, the frames
sent to the new connection, and the new connection's `readyState` and
`isAlive` flags. -/
structure ConnOutcome where
  registry : List Nat
  sentToClient : List Envelope
  readyState : Nat
  isAlive : Bool
deriving Repr, DecidableEq

/-- Dispatch of one `connection` event of the native-socket backend.  Two
listeners run in registration order: first the `WebsocketServer`
constructor's listener (transport source lines 73-90), which pushes the
connection onto `this.clients` and marks it alive — it was registered inside
`new WebsocketServer(server)` before `createWebSocketServer` attaches the
validation listener — and then the server's listener (server source lines
2258-2353): the Host/Origin gate, which on failure sends one `error`
envelope and calls `client.close()` (readyState becomes `2`, closing), and
on success sends the initial burst `hot`, `liveReload`, `progress`,
`reconnect`, `overlay` (payloads carried as configured; the overlay's
function-valued settings are encoded for transport by an external helper and
carried through here unchanged) followed, when a build has completed at
least once, by a forced `sendStats`.  Returns the outcome for the new
connection together with the `currentHash` after the dispatch. -/
def connectionEvent (ext : ExternalFns) (opts : Options)
    (stats : Option StatsCompilation) (currentHash : Option String)
    (registry : List Nat) (cid : Nat) (headers : Option HeadersT) :
    ConnOutcome × Option String :=
  let registry1 := registry ++ [cid]
  if failsValidation ext opts headers then
    ({ registry := registry1, sentToClient := [errorEnvelope],
       readyState := 2, isAlive := true }, currentHash)
  else
    let burst :=
      (if opts.hot = jsBool true ∨ opts.hot = jsStr "only" then
        [{ type := "hot" : Envelope }]
      else []) ++
      (if jsTruthy opts.liveReload then [{ type := "liveReload" : Envelope }]
      else []) ++
      (match opts.client with
       | some c =>
         (if jsTruthy c.progress then
           [{ type := "progress", data := c.progress : Envelope }]
         else []) ++
         (if jsTruthy c.reconnect then
           [{ type := "reconnect", data := c.reconnect : Envelope }]
         else []) ++
         (if jsTruthy c.overlay then
           [{ type := "overlay", data := c.overlay : Envelope }]
         else [])
       | none => [])
    match stats with
    | none =>
      ({ registry := registry1, sentToClient := burst,
         readyState := 1, isAlive := true }, currentHash)
    | some st =>
      let result := sendStats currentHash (some st) true
      ({ registry := registry1, sentToClient := burst ++ result.2,
         readyState := 1, isAlive := true }, result.1)

/-- The `close` listener of the native-socket backend (transport source lines
82-84): `this.clients.splice(this.clients.indexOf(client), 1)`.  When the
client is present the first occurrence is removed; when `indexOf` yields `-1`
the splice removes the last element. -/
def removeFirstId : List Nat → Nat → List Nat
  | [], _ => []
  | c :: rest, i => if c = i then rest else c :: removeFirstId rest i

/-- Dispatch of a connection's `close` event on the registry. -/
def closeEvent (clients : List Nat) (cid : Nat) : List Nat :=
  if clients.contains cid then removeFirstId clients cid
  else clients.dropLast

/-- One tick of the native-socket backend's heartbeat interval (transport
source lines 60-71): a connection still marked not-alive is terminated — its
close event then splices it out of the registry — while a live connection is
marked not-alive and pinged.  Returns the surviving registry (in order) and
the ids of the terminated connections. -/
def heartbeatTick : List ClientConn → List ClientConn × List Nat
  | [] => ([], [])
  | c :: rest =>
    let r := heartbeatTick rest
    if c.isAlive = false then
      (r.1, c.id :: r.2)
    else
      ({ c with isAlive := false } :: r.1, r.2)

/-- The `pong` listener (transport source lines 78-80): the connection that
answered the ping is marked alive again. -/
def pongEvent (clients : List ClientConn) (cid : Nat) : List ClientConn :=
  clients.map (fun c => if c.id = cid then { c with isAlive := true } else c)

/-- Running the heartbeat over a sequence of intervals: each interval is the
set of connection ids that answered the previous ping with a pong before the
tick at the interval's end.  Returns the final registry and the accumulated
terminated ids. -/
def runHeartbeat (clients : List ClientConn) (terminated : List Nat) :
    List (List Nat) → List ClientConn × List Nat
  | [] => (clients, terminated)
  | pongs :: rest =>
    let afterPongs := pongs.foldl pongEvent clients
    let t := heartbeatTick afterPongs
    runHeartbeat t.1 (terminated ++ t.2) rest

/-- `hasId clients i` : some connection with id `i` is in the registry. -/
def hasId (clients : List ClientConn) (i : Nat) : Bool :=
  clients.any (fun c => c.id == i)

/-- The initial value of the client's `maxRetries` (client socket source line
42). -/
def initialMaxRetries : Nat := 10

/-- The client reconnection state observed by `socket.ts`: the module-level
`retries` and `maxRetries` counters and the pending reconnect timer (`none`
when no reconnect is scheduled; the value is the delay in milliseconds). -/
structure SocketState where
  retries : Nat
  maxRetries : Nat
  timeout : Option ℚ := none
deriving DecidableEq

/-- The client's `onOpen` handler (client socket source lines 62-72): reset
the retry counter, cancel any pending reconnect timer, and adopt the
configured max-retry budget when a `reconnect` value was provided. -/
def socketOnOpen (reconnect : Option Nat) (st : SocketState) : SocketState :=
  { retries := 0,
    timeout := none,
    maxRetries :=
      match reconnect with
      | some r => r
      | none => st.maxRetries }

/-- The observable outcome of the client's `onClose` handler. -/
structure CloseOutcome where
  closeHandlerCalled : Bool
  scheduledDelay : Option ℚ
  retries : Nat
deriving DecidableEq

/-- The client's `onClose` handler (client socket source lines 74-96), with
`Math.random()` passed in as `rand`: the registered `close` handler fires
only on the very first close (`retries === 0`); while the retry counter is
below the budget a reconnect is scheduled after
`1000 * 2 ** retries + rand * 100` milliseconds and the counter is
incremented; once the budget is reached nothing is scheduled and no error is
raised (the handler is total). -/
def socketOnClose (st : SocketState) (rand : ℚ) : CloseOutcome :=
  let closeCalled := st.retries = 0
  if st.retries < st.maxRetries then
    { closeHandlerCalled := closeCalled,
      scheduledDelay := some (1000 * 2 ^ st.retries + rand * 100),
      retries := st.retries + 1 }
  else
    { closeHandlerCalled := closeCalled,
      scheduledDelay := none,
      retries := st.retries }

/-- The reload decision of the client's `warnings` message handler
(client entry source lines 436-476): after logging, reporting and possibly
showing the overlay — none of which return early — the handler returns
without calling `reloadApp` exactly when `params && params.preventReloading`
is truthy. -/
def warningsHandlerCallsReload (params : JsVal) : Bool :=
  !(jsTruthy params && jsPrimTruthy (jsGet params "preventReloading"))

/-- Model of the hostname extraction of Node's legacy
`url.parse(input, false, true).hostname` for concrete instances: a string
with an explicit `http`/`https` scheme or protocol-relative slashes yields
the authority up to the first `/`, `:`, `?` or `#`; anything else has no
hostname.  Faithful to the real parser on every string used in a concrete
instance below. -/
def urlParseHostnameModel (s : String) : Option String :=
  let afterScheme :=
    if strStartsWith s "http://" then some (strDrop s 7)
    else if strStartsWith s "https://" then some (strDrop s 8)
    else if strStartsWith s "//" then some (strDrop s 2)
    else none
  match afterScheme with
  | none => none
  | some rest =>
    let auth : String :=
      ⟨rest.data.takeWhile
        (fun c => c != '/' && c != ':' && c != '?' && c != '#')⟩
    if auth = "" then none else some auth

/-- Splitting a character list on a separator character (the pieces between
occurrences of the separator, in order). -/
def splitOnChar (sep : Char) : List Char → List (List Char)
  | [] => [[]]
  | c :: cs =>
    let r := splitOnChar sep cs
    if c == sep then
      [] :: r
    else
      match r with
      | h :: t => (c :: h) :: t
      | [] => [[c]]

/-- The numeric value of a list of decimal digits. -/
def digitsVal (cs : List Char) : Nat :=
  cs.foldl (fun a c => a * 10 + (c.toNat - 48)) 0

/-- Model of `ipaddr.IPv4.isValid` for concrete instances: a dotted quad of
decimal octets. -/
def ipv4IsValidModel (s : String) : Bool :=
  let parts := splitOnChar '.' s.data
  parts.length == 4 &&
    parts.all (fun p =>
      !p.isEmpty && p.all (fun c => '0' ≤ c && c ≤ '9') && p.length ≤ 3 &&
        digitsVal p ≤ 255)

/-- Model of `ipaddr.IPv6.isValid` for concrete instances (no IPv6 literal
appears in any concrete instance). -/
def ipv6IsValidModel (_ : String) : Bool := false

/-- The concrete external-function record used by concrete instances. -/
def extModel : ExternalFns :=
  { urlParseHostname := urlParseHostnameModel,
    ipv4IsValid := ipv4IsValidModel,
    ipv6IsValid := ipv6IsValidModel }

/-- The condition that claim C7's sentence asserts `isSameOrigin` to equal
when an Origin header is present: "the Origin value matches the
allowed-protocol pattern, or its hostname satisfies `isHostAllowed`, or the
Host header's value/hostname is protocol-allowed or `isHostAllowed`, or the
Origin hostname textually equals the Host hostname".  Formalised from the
claim's words (a hostname disjunct is false when the hostname does not
parse), to be compared against the source's `isSameOrigin`. -/
def claimedSameOriginCondition (ext : ExternalFns) (opts : Options)
    (headers : HeadersT) : Bool :=
  match headers "origin" with
  | none => false
  | some o =>
    defaultAllowedProtocolsTest o ||
    (match ext.urlParseHostname o with
     | some oh => isHostAllowed opts oh
     | none => false) ||
    (match headers "host" with
     | none => false
     | some h =>
       defaultAllowedProtocolsTest h ||
       (match hostnameFromHeader ext h with
        | some hn => isHostAllowed opts hn
        | none => false)) ||
    (match ext.urlParseHostname o,
        (headers "host").bind (fun h => hostnameFromHeader ext h) with
     | some oh, some hn => oh == hn
     | _, _ => false)

/-- The amended condition for claim C7: as the claim's disjunction, but each
disjunct additionally requires every parse step before it to succeed — a
non-parsing Origin hostname short-circuits to false before the Host header
is consulted, and an absent or empty Host header disables the Host-based and
textual-equality disjuncts. -/
def amendedSameOriginCondition (ext : ExternalFns) (opts : Options)
    (headers : HeadersT) : Bool :=
  match headers "origin" with
  | none => false
  | some o =>
    defaultAllowedProtocolsTest o ||
    (match ext.urlParseHostname o with
     | none => false
     | some oh =>
       isHostAllowed opts oh ||
       (match headers "host" with
        | none => false
        | some h =>
          (h != "") &&
          (defaultAllowedProtocolsTest h ||
           (match hostnameFromHeader ext h with
            | none => false
            | some hn => isHostAllowed opts hn || oh == hn))))

/-! Concrete fixtures used by counterexamples and witnesses.  The modelled
external functions (`extModel`) agree with Node's legacy `url.parse` and
`ipaddr.js` on every string below. -/

/-- Headers of a request from a LAN address: `Host: 192.168.0.5:8080`. -/
def hdrsIPv4 : HeadersT :=
  fun k => if k = "host" then some "192.168.0.5:8080" else none

/-- Headers of a rejected cross-site request: `Origin: null` (an opaque
origin, whose hostname does not parse) and `Host: file://x`. -/
def hdrsRejected : HeadersT :=
  fun k =>
    if k = "origin" then some "null"
    else if k = "host" then some "file://x" else none

/-- Headers with no Origin header at all. -/
def hdrsNoOrigin : HeadersT := fun _ => none

/-- Options with the default `allowedHosts: 'auto'`. -/
def optsAuto : Options := { allowedHosts := .auto }

/-- Options with a non-wildcard allow-list. -/
def optsList : Options := { allowedHosts := .list ["something"] }

/-- Options with a configured public client hostname
(`client.webSocketURL.hostname = "test.host"`, in its normalized object
form). -/
def optsWS : Options :=
  { allowedHosts := .auto,
    client := some { webSocketURL := some (.obj (some "test.host")) } }

/-- A clean build summary (hash `h1`, no warnings, no errors). -/
def statsClean : StatsCompilation := { hash := some "h1" }

/-- A build summary with one error and one warning. -/
def statsBoth : StatsCompilation :=
  { hash := some "h2",
    errors := some [.str "e1"],
    warnings := some [.str "w1"] }

/-- A registry with one open, one closing and one closed connection. -/
def demoClients : List ClientConn :=
  [{ id := 1, readyState := 1 }, { id := 2, readyState := 2 },
   { id := 3, readyState := 3 }]

/-! Helper lemmas. -/

theorem lengthPositive_eq_not_absentOrEmpty (l : Option (List JsPrim)) :
    lengthPositive l = !absentOrEmpty l := by
  cases l with
  | none => rfl
  | some xs => cases xs <;> simp [lengthPositive, absentOrEmpty]

theorem sendMessage_filter_eq (clients : List ClientConn) (type : String)
    (data params : JsVal) :
    sendMessage clients type data params =
      (clients.filter (fun c => c.readyState == 1)).map
        (fun c => (c.id, { type := type, data := data, params := params })) := by
  induction clients with
  | nil => rfl
  | cons c rest ih =>
    by_cases h : c.readyState = 1 <;>
      simp [sendMessage, h, List.filter_cons, ih]

/-- C10: `sendMessage(clients, type, data, params)` sends the JSON-encoded
envelope only to connections whose `readyState` equals 1 (open); connections
in any other state are silently skipped — the frames handed to the transport
are exactly one per open connection of the given list, in order, and every
frame belongs to an open connection, so a broadcast over a registry that
contains closing connections is total and never throws. -/
theorem c10_sendMessage_only_open (clients : List ClientConn) (type : String)
    (data params : JsVal) :
    sendMessage clients type data params =
      (clients.filter (fun c => c.readyState == 1)).map
        (fun c => (c.id, { type := type, data := data, params := params })) ∧
    ∀ x ∈ sendMessage clients type data params,
      ∃ c, c ∈ clients ∧ c.readyState = 1 ∧
        x = (c.id, { type := type, data := data, params := params }) := by
  refine ⟨sendMessage_filter_eq clients type data params, ?_⟩
  intro x hx
  rw [sendMessage_filter_eq clients type data params] at hx
  simp only [List.mem_map, List.mem_filter] at hx
  obtain ⟨c, ⟨hc, hrs⟩, rfl⟩ := hx
  exact ⟨c, hc, by simpa using hrs, rfl⟩

/-- Witness for C10: over a registry with one open (`id 1`), one closing and
one closed connection, exactly the open connection receives the frame. -/
theorem c10_witness :
    sendMessage demoClients "ok" jsUndefined jsUndefined = [(1, { type := "ok" })] := by
  rw [(c10_sendMessage_only_open demoClients "ok" jsUndefined jsUndefined).1]
  decide

theorem sendStats_hash_beq (ch : Option String) (stats : StatsCompilation)
    (force : Bool) (he : absentOrEmpty stats.errors = true)
    (hw : absentOrEmpty stats.warnings = true) :
    ((sendStats ch (some stats) force).1 == stats.hash) = true := by
  by_cases hh : (ch == stats.hash) = true <;>
    cases force <;>
      simp [sendStats, he, hw, hh] <;>
        split <;> simp

/-- C3: with `force` false, empty-or-absent errors and warnings and a hash
equal to the recorded `currentHash`, `sendStats` emits only a `still-ok`
envelope and leaves `currentHash` unchanged; in particular broadcasting the
same clean result twice emits `still-ok` on the second call and does not
change the recorded hash. -/
theorem c3_sendStats_still_ok (currentHash : Option String)
    (stats : StatsCompilation) (force : Bool) (hf : force = false)
    (he : absentOrEmpty stats.errors = true)
    (hw : absentOrEmpty stats.warnings = true)
    (hh : currentHash = stats.hash) :
    sendStats currentHash (some stats) force =
      (currentHash, [stillOkEnvelope]) ∧
    ∀ ch f, sendStats (sendStats ch (some stats) f).1 (some stats) false =
      ((sendStats ch (some stats) f).1, [stillOkEnvelope]) := by
  constructor
  · subst hf hh
    simp [sendStats, he, hw]
  · intro ch f
    have hbeq := sendStats_hash_beq ch stats f he hw
    conv in sendStats (sendStats ch (some stats) f).1 (some stats) false =>
      rw [sendStats]
    simp [he, hw, hbeq]

/-- Witness for C3: a clean summary whose hash matches the recorded hash
yields exactly one `still-ok`, twice in a row. -/
theorem c3_witness :
    sendStats (some "h1") (some statsClean) false =
      ((some "h1"), [stillOkEnvelope]) ∧
    sendStats (sendStats none (some statsClean) true).1 (some statsClean)
        false =
      ((sendStats none (some statsClean) true).1, [stillOkEnvelope]) := by
  have h := c3_sendStats_still_ok (some "h1") statsClean false rfl
    (by decide) (by decide) (by decide)
  exact ⟨h.1, h.2 none true⟩

/-- C4: with `force` true the de-duplication short-circuit is skipped:
`currentHash` becomes `stats.hash`, a `hash` envelope leads the emission,
followed by `ok` when there are no warnings and no errors, or by the
`warnings`/`errors` envelopes otherwise — even when `stats.hash` equals the
previously recorded `currentHash`. -/
theorem c4_sendStats_force (ch : Option String) (stats : StatsCompilation) :
    (sendStats ch (some stats) true).1 = stats.hash ∧
    (∃ rest, (sendStats ch (some stats) true).2 =
      hashEnvelope stats.hash :: rest) ∧
    (absentOrEmpty stats.errors = true → absentOrEmpty stats.warnings = true →
      (sendStats ch (some stats) true).2 =
        [hashEnvelope stats.hash, okEnvelope]) ∧
    (lengthPositive stats.warnings = true →
      warningsEnvelope stats ∈ (sendStats ch (some stats) true).2) ∧
    (lengthPositive stats.errors = true →
      errorsEnvelope stats ∈ (sendStats ch (some stats) true).2) := by
  have hkey : ∀ l, lengthPositive l = true → absentOrEmpty l = false := by
    intro l h
    have h2 := lengthPositive_eq_not_absentOrEmpty l
    rw [h] at h2
    cases habs : absentOrEmpty l
    · rfl
    · rw [habs] at h2
      simp at h2
  by_cases he : lengthPositive stats.errors = true
  · by_cases hw : lengthPositive stats.warnings = true
    · have heq : sendStats ch (some stats) true =
          (stats.hash, [hashEnvelope stats.hash, warningsEnvelope stats,
            errorsEnvelope stats]) := by
        simp [sendStats, he, hw]
      rw [heq]
      refine ⟨rfl, ⟨_, rfl⟩, ?_, fun _ => by simp, fun _ => by simp⟩
      intro h _
      rw [hkey _ he] at h
      simp at h
    · have heq : sendStats ch (some stats) true =
          (stats.hash, [hashEnvelope stats.hash, errorsEnvelope stats]) := by
        simp [sendStats, he, hw]
      rw [heq]
      refine ⟨rfl, ⟨_, rfl⟩, ?_, ?_, fun _ => by simp⟩
      · intro h _
        rw [hkey _ he] at h
        simp at h
      · intro h
        exact absurd h hw
  · by_cases hw : lengthPositive stats.warnings = true
    · have heq : sendStats ch (some stats) true =
          (stats.hash, [hashEnvelope stats.hash, warningsEnvelope stats]) := by
        simp [sendStats, he, hw]
      rw [heq]
      refine ⟨rfl, ⟨_, rfl⟩, ?_, fun _ => by simp, ?_⟩
      · intro _ h
        rw [hkey _ hw] at h
        simp at h
      · intro h
        exact absurd h he
    · have heq : sendStats ch (some stats) true =
          (stats.hash, [hashEnvelope stats.hash, okEnvelope]) := by
        simp [sendStats, he, hw]
      rw [heq]
      exact ⟨rfl, ⟨_, rfl⟩, fun _ _ => rfl, fun h => absurd h hw,
        fun h => absurd h he⟩

/-- Witness for C4: forcing a broadcast of a summary with both an error and
a warning, over an unchanged recorded hash, emits `hash`, `warnings`,
`errors`. -/
theorem c4_witness :
    (sendStats (some "h2") (some statsBoth) true).1 = statsBoth.hash ∧
    warningsEnvelope statsBoth ∈ (sendStats (some "h2") (some statsBoth) true).2 ∧
    errorsEnvelope statsBoth ∈ (sendStats (some "h2") (some statsBoth) true).2 := by
  have h := c4_sendStats_force (some "h2") statsBoth
  exact ⟨h.1, h.2.2.2.1 (by decide), h.2.2.2.2 (by decide)⟩

/-- C5: a build result with at least one error and at least one warning makes
`sendStats` emit a `warnings` envelope whose params are
`{ preventReloading: true }`, and the client's `warnings` handler, given such
params, returns without invoking `reloadApp`. -/
theorem c5_preventReloading (ch : Option String) (stats : StatsCompilation)
    (force : Bool) (he : lengthPositive stats.errors = true)
    (hw : lengthPositive stats.warnings = true) :
    (warningsEnvelope stats).params =
      JsVal.obj [("preventReloading", .bool true)] ∧
    warningsEnvelope stats ∈ (sendStats ch (some stats) force).2 ∧
    warningsHandlerCallsReload
      (JsVal.obj [("preventReloading", .bool true)]) = false ∧
    (∀ params : JsVal, jsTruthy params = true →
      jsPrimTruthy (jsGet params "preventReloading") = true →
      warningsHandlerCallsReload params = false) := by
  refine ⟨by simp [warningsEnvelope, he], ?_, by decide, ?_⟩
  · have he' : absentOrEmpty stats.errors = false := by
      have := lengthPositive_eq_not_absentOrEmpty stats.errors
      rw [he] at this
      simpa using this.symm
    cases force <;> simp [sendStats, he, hw, he']
  · intro params hp hpr
    simp [warningsHandlerCallsReload, hp, hpr]

/-- Witness for C5: the summary with one error and one warning. -/
theorem c5_witness :
    warningsEnvelope statsBoth ∈ (sendStats none (some statsBoth) false).2 ∧
    (warningsEnvelope statsBoth).params =
      JsVal.obj [("preventReloading", .bool true)] ∧
    warningsHandlerCallsReload
      (JsVal.obj [("preventReloading", .bool true)]) = false := by
  have h := c5_preventReloading none statsBoth false (by decide) (by decide)
  exact ⟨h.2.1, h.1, h.2.2.1⟩

theorem isHostAllowed_wildcard (opts : Options) (v : String)
    (h : opts.allowedHosts = AllowedHosts.all) :
    isHostAllowed opts v = true := by
  simp [isHostAllowed, h]

/-- C2 (code bug): even when the configured public client hostname equals
the checked value exactly, `isHostAllowed` returns false outside the
wildcard and allow-list paths.  The source's final branch compares the whole
`webSocketURL` value with the hostname string via `===` instead of reading
its `hostname` field, so the normalized object form — the only form that
reaches the validator, since `normalizeOptions` always rewrites
`webSocketURL` to an object — never matches.  This contradicts the comment
right above the branch ("Also allow if `client.webSocketURL.hostname`
provided") and the normalization comment naming `webSocketURL.hostname` as a
default-allowed host. -/
theorem c2_configured_hostname_rejected (v : String) (h : Option String)
    (progress reconnect overlay : JsVal) :
    isHostAllowed
      { allowedHosts := .auto, host := h,
        client := some
          { progress := progress, reconnect := reconnect,
            overlay := overlay, webSocketURL := some (.obj (some v)) } } v =
      false := by
  simp [isHostAllowed, WebSocketURLValue.strictEqString]

/-- Witness for C2: the concrete configuration with public client hostname
`test.host` rejects the header hostname `test.host`. -/
theorem c2_witness : isHostAllowed optsWS "test.host" = false := by
  exact c2_configured_hostname_rejected "test.host" none jsUndefined jsUndefined
    jsUndefined

/-- C6: a checked header whose hostname parses to a literal IPv4 or IPv6
address passes `isValidHost` in strict mode for every allowed-hosts
configuration; with `validateHost` false the IPv4/IPv6/localhost/
`.localhost`/listening-host auto-allow rules do not apply, so a hostname not
otherwise allowed is rejected. -/
theorem c6_ip_literals_strict (ext : ExternalFns) (opts : Options)
    (headers : HeadersT) (name s h : String)
    (hs : headers name = some s) (hne : (s == "") = false)
    (hparse : hostnameFromHeader ext s = some h) :
    ((ext.ipv4IsValid h || ext.ipv6IsValid h) = true →
      isValidHost ext opts headers name true = true) ∧
    (defaultAllowedProtocolsTest s = false → isHostAllowed opts h = false →
      isValidHost ext opts headers name false = false) := by
  constructor
  · intro hip
    by_cases hall : opts.allowedHosts = AllowedHosts.all
    · simp [isValidHost, hall]
    · by_cases hproto : defaultAllowedProtocolsTest s = true
      · simp [isValidHost, hall, hs, hne, hproto]
      · by_cases hha : isHostAllowed opts h = true
        · simp [isValidHost, hall, hs, hne, hproto, hparse, hha]
        · rw [Bool.not_eq_true] at hproto hha
          rcases Bool.or_eq_true_iff.mp hip with h4 | h6
          · simp [isValidHost, hall, hs, hne, hproto, hparse, hha, h4]
          · simp [isValidHost, hall, hs, hne, hproto, hparse, hha, h6]
  · intro hproto hha
    have hall : ¬ opts.allowedHosts = AllowedHosts.all := by
      intro hc
      rw [isHostAllowed_wildcard opts h hc] at hha
      cases hha
    simp [isValidHost, hall, hs, hne, hproto, hparse, hha]

/-- Witness for C6: `Host: 192.168.0.5:8080` against the non-wildcard
allow-list `["something"]` passes in strict mode and fails in non-strict
mode. -/
theorem c6_witness :
    isValidHost extModel optsList hdrsIPv4 "host" true = true ∧
    isValidHost extModel optsList hdrsIPv4 "host" false = false := by
  have h := c6_ip_literals_strict extModel optsList hdrsIPv4 "host"
    "192.168.0.5:8080" "192.168.0.5" (by decide) (by decide) (by decide)
  exact ⟨h.1 (by decide), h.2 (by decide) (by decide)⟩

/-- C8: while the retry counter `n` is below the max-retry budget, the
client schedules a reconnect after `1000 * 2 ^ n + rand * 100` milliseconds —
within `[1000 * 2 ^ n, 1000 * 2 ^ n + 100)` for `rand ∈ [0, 1)` — and
increments the counter; once the counter has reached the budget nothing is
scheduled and the counter stays put (the handler is total, so no error is
raised).  The budget starts at 10 and is overwritten on open by a configured
`reconnect` value, which open also resets the counter and pending timer. -/
theorem c8_reconnect_backoff (n maxR : Nat) (t : Option ℚ) (rand : ℚ)
    (h0 : 0 ≤ rand) (h1 : rand < 1) :
    (n < maxR →
      ∃ d, (socketOnClose ⟨n, maxR, t⟩ rand).scheduledDelay = some d ∧
        (socketOnClose ⟨n, maxR, t⟩ rand).retries = n + 1 ∧
        1000 * 2 ^ n ≤ d ∧ d < 1000 * 2 ^ n + 100) ∧
    (maxR ≤ n →
      (socketOnClose ⟨n, maxR, t⟩ rand).scheduledDelay = none ∧
      (socketOnClose ⟨n, maxR, t⟩ rand).retries = n) ∧
    initialMaxRetries = 10 ∧
    (∀ (r : Nat) (st : SocketState),
      (socketOnOpen (some r) st).maxRetries = r ∧
      (socketOnOpen none st).maxRetries = st.maxRetries ∧
      (socketOnOpen (some r) st).retries = 0 ∧
      (socketOnOpen (some r) st).timeout = none) := by
  refine ⟨?_, ?_, rfl, fun r st => ⟨rfl, rfl, rfl, rfl⟩⟩
  · intro hlt
    refine ⟨1000 * 2 ^ n + rand * 100, ?_, ?_, ?_, ?_⟩
    · simp [socketOnClose, hlt]
    · simp [socketOnClose, hlt]
    · nlinarith [pow_pos (by norm_num : (0:ℚ) < 2) n]
    · nlinarith [pow_pos (by norm_num : (0:ℚ) < 2) n]
  · intro hge
    have hnlt : ¬ n < maxR := Nat.not_lt.mpr hge
    exact ⟨by simp [socketOnClose, hnlt], by simp [socketOnClose, hnlt]⟩

/-- Witness for C8: the first close (retry counter 0, budget 10,
`Math.random() = 1/2`) schedules a reconnect after 1050 ms; with the counter
at the budget nothing is scheduled. -/
theorem c8_witness :
    (socketOnClose ⟨0, 10, none⟩ ((1:ℚ)/2)).scheduledDelay = some 1050 ∧
    (socketOnClose ⟨10, 10, none⟩ ((1:ℚ)/2)).scheduledDelay = none := by
  constructor
  · norm_num [socketOnClose]
  · exact ((c8_reconnect_backoff 10 10 none ((1:ℚ)/2) (by norm_num)
      (by norm_num)).2.1 (le_refl 10)).1

/-- Counterexample for C7: with the non-wildcard allow-list `["something"]`,
`Origin: null` (an opaque origin whose hostname does not parse) and
`Host: file://x` (protocol-allowed), the claim's disjunction is true — the
Host header's value matches the allowed-protocol pattern — yet
`isSameOrigin` returns false: the source returns false as soon as the Origin
hostname fails to parse, before consulting the Host header. -/
theorem c7_counterexample :
    optsList.allowedHosts ≠ AllowedHosts.all ∧
    hdrsRejected "origin" = some "null" ∧
    claimedSameOriginCondition extModel optsList hdrsRejected = true ∧
    isSameOrigin extModel optsList hdrsRejected = false := by
  decide

/-- C7 (amended): with no Origin header, `isSameOrigin` returns true iff the
wildcard allow-list is active.  With a non-empty Origin header and a
non-wildcard allow-list, `isSameOrigin` returns true exactly per the claim's
disjunction amended so that each disjunct requires every parse step before
it to succeed: a non-parsing Origin hostname short-circuits to false before
the Host header is consulted, and an absent or empty Host header disables
the Host-based and textual-equality disjuncts. -/
theorem c7_sameOrigin_characterisation (ext : ExternalFns) (opts : Options)
    (headers : HeadersT) :
    (headers "origin" = none →
      isSameOrigin ext opts headers =
        decide (opts.allowedHosts = AllowedHosts.all)) ∧
    (opts.allowedHosts ≠ AllowedHosts.all →
      ∀ o, headers "origin" = some o → (o == "") = false →
        isSameOrigin ext opts headers =
          amendedSameOriginCondition ext opts headers) := by
  constructor
  · intro ho
    by_cases hall : opts.allowedHosts = AllowedHosts.all <;>
      simp [isSameOrigin, hall, ho]
  · intro hall o ho hne
    by_cases hp : defaultAllowedProtocolsTest o = true
    · simp [isSameOrigin, amendedSameOriginCondition, hall, ho, hne, hp]
    · rw [Bool.not_eq_true] at hp
      cases hparse : ext.urlParseHostname o with
      | none =>
        simp [isSameOrigin, amendedSameOriginCondition, hall, ho, hne, hp,
          hparse]
      | some oh =>
        by_cases hha : isHostAllowed opts oh = true
        · simp [isSameOrigin, amendedSameOriginCondition, hall, ho, hne, hp,
            hparse, hha]
        · rw [Bool.not_eq_true] at hha
          cases hhost : headers "host" with
          | none =>
            simp [isSameOrigin, amendedSameOriginCondition, hall, ho, hne,
              hp, hparse, hha, hhost]
          | some hh =>
            by_cases hhe : (hh == "") = true
            · have hhq : hh = "" := by simpa using hhe
              simp [isSameOrigin, amendedSameOriginCondition, hall, ho, hne,
                hp, hparse, hha, hhost, hhq]
            · rw [Bool.not_eq_true] at hhe
              have hhne : ¬ hh = "" := by simpa using hhe
              by_cases hph : defaultAllowedProtocolsTest hh = true
              · simp [isSameOrigin, amendedSameOriginCondition, hall, ho,
                  hne, hp, hparse, hha, hhost, hhe, hhne, hph]
              · rw [Bool.not_eq_true] at hph
                cases hparseh : hostnameFromHeader ext hh with
                | none =>
                  simp [isSameOrigin, amendedSameOriginCondition, hall, ho,
                    hne, hp, hparse, hha, hhost, hhe, hhne, hph, hparseh]
                | some hn =>
                  by_cases hhan : isHostAllowed opts hn = true
                  · simp [isSameOrigin, amendedSameOriginCondition, hall,
                      ho, hne, hp, hparse, hha, hhost, hhe, hhne, hph,
                      hparseh, hhan]
                  · rw [Bool.not_eq_true] at hhan
                    simp [isSameOrigin, amendedSameOriginCondition, hall,
                      ho, hne, hp, hparse, hha, hhost, hhe, hhne, hph,
                      hparseh, hhan]

/-- Witness for C7 (amended): a request with no Origin header is rejected
under the non-wildcard allow-list, and the rejected fixture satisfies the
amended characterisation. -/
theorem c7_witness :
    isSameOrigin extModel optsList hdrsNoOrigin = false ∧
    isSameOrigin extModel optsList hdrsRejected =
      amendedSameOriginCondition extModel optsList hdrsRejected := by
  constructor
  · have h := (c7_sameOrigin_characterisation extModel optsList
      hdrsNoOrigin).1 rfl
    rw [h]
    decide
  · exact (c7_sameOrigin_characterisation extModel optsList
      hdrsRejected).2 (by decide) "null" (by decide) (by decide)

theorem removeFirstId_append (registry : List Nat) (cid : Nat)
    (hnotin : cid ∉ registry) :
    removeFirstId (registry ++ [cid]) cid = registry := by
  induction registry with
  | nil => simp [removeFirstId]
  | cons a rest ih =>
    have ha : ¬ a = cid := fun h => hnotin (h ▸ List.mem_cons_self a rest)
    show (if a = cid then rest ++ [cid]
      else a :: removeFirstId (rest ++ [cid]) cid) = a :: rest
    rw [if_neg ha, ih (fun h => hnotin (List.mem_cons_of_mem a h))]

/-- Counterexample for C1: a connection rejected by the Host/Origin gate
receives exactly one `error` envelope and is closed — but it IS a member of
the backend's clients list after the dispatch: the transport's `connection`
listener, registered first, pushed it before the validation listener ran.
This refutes "the connection is never a member of the registry's broadcast
set at any point"; it leaves the list only when its close event fires. -/
theorem c1_counterexample :
    failsValidation extModel optsList (some hdrsRejected) = true ∧
    (connectionEvent extModel optsList none none [] 7
      (some hdrsRejected)).1.sentToClient = [errorEnvelope] ∧
    (connectionEvent extModel optsList none none [] 7
      (some hdrsRejected)).1.readyState = 2 ∧
    (connectionEvent extModel optsList none none [] 7
      (some hdrsRejected)).1.registry.contains 7 = true := by
  decide

/-- C1 (amended): every connection that fails the Host/Origin gate receives
exactly one `error` envelope (data `Invalid Host/Origin header`), is closed
(`readyState` 2) and leaves `currentHash` untouched; the backend's
connection listener has already appended it to the clients list, its close
event removes it again, and while closing it can receive no frame from
`sendMessage` — so it never receives a broadcast even while still
listed. -/
theorem c1_rejected_connection (ext : ExternalFns) (opts : Options)
    (stats : Option StatsCompilation) (ch : Option String)
    (registry : List Nat) (cid : Nat) (headers : Option HeadersT)
    (hfail : failsValidation ext opts headers = true)
    (hnotin : cid ∉ registry) :
    connectionEvent ext opts stats ch registry cid headers =
      ({ registry := registry ++ [cid], sentToClient := [errorEnvelope],
         readyState := 2, isAlive := true }, ch) ∧
    closeEvent (registry ++ [cid]) cid = registry ∧
    (∀ type data params b,
      sendMessage [{ id := cid, readyState := 2, isAlive := b }] type data
        params = []) := by
  refine ⟨by simp [connectionEvent, hfail], ?_,
    by intro t d p b; simp [sendMessage]⟩
  rw [closeEvent]
  have hc : (registry ++ [cid]).contains cid = true := by
    simp [List.contains, List.elem_eq_mem]
  rw [if_pos hc]
  exact removeFirstId_append registry cid hnotin

/-- Witness for C1 (amended): the rejected fixture connection (id 7) over an
empty registry. -/
theorem c1_witness :
    connectionEvent extModel optsList none none [] 7 (some hdrsRejected) =
      ({ registry := [7], sentToClient := [errorEnvelope],
         readyState := 2, isAlive := true }, none) ∧
    closeEvent [7] 7 = [] := by
  have h := c1_rejected_connection extModel optsList none none [] 7
    (some hdrsRejected) (by decide) (by simp)
  exact ⟨by simpa using h.1, by simpa using h.2.1⟩

theorem hasId_pongEvent (cs : List ClientConn) (j i : Nat) :
    hasId (pongEvent cs j) i = hasId cs i := by
  unfold hasId pongEvent
  rw [List.any_map]
  congr 1
  funext c
  by_cases h : c.id = j <;> simp [h]

theorem hasId_pongFold (ps : List Nat) (cs : List ClientConn) (i : Nat) :
    hasId (ps.foldl pongEvent cs) i = hasId cs i := by
  induction ps generalizing cs with
  | nil => rfl
  | cons p ps ih => rw [List.foldl_cons, ih, hasId_pongEvent]

theorem pongEvent_dead_preserve (cs : List ClientConn) (j i : Nat)
    (hne : j ≠ i) (h : ∀ c ∈ cs, c.id = i → c.isAlive = false) :
    ∀ c ∈ pongEvent cs j, c.id = i → c.isAlive = false := by
  intro c hc hid
  simp only [pongEvent, List.mem_map] at hc
  obtain ⟨c0, hc0, hceq⟩ := hc
  by_cases h0 : c0.id = j
  · rw [if_pos h0] at hceq
    subst hceq
    have hci : c0.id = i := hid
    exact absurd (h0 ▸ hci) hne
  · rw [if_neg h0] at hceq
    subst hceq
    exact h c0 hc0 hid

theorem pongFold_dead_preserve (ps : List Nat) (cs : List ClientConn)
    (i : Nat) (hps : i ∉ ps)
    (h : ∀ c ∈ cs, c.id = i → c.isAlive = false) :
    ∀ c ∈ ps.foldl pongEvent cs, c.id = i → c.isAlive = false := by
  induction ps generalizing cs with
  | nil => exact h
  | cons p ps ih =>
    rw [List.foldl_cons]
    refine ih _ (fun hmem => hps (List.mem_cons_of_mem p hmem)) ?_
    refine pongEvent_dead_preserve cs p i ?_ h
    intro he
    exact hps (by rw [← he]; exact List.mem_cons_self p ps)

theorem pongEvent_alive_preserve (cs : List ClientConn) (j i : Nat)
    (h : ∀ c ∈ cs, c.id = i → c.isAlive = true) :
    ∀ c ∈ pongEvent cs j, c.id = i → c.isAlive = true := by
  intro c hc hid
  simp only [pongEvent, List.mem_map] at hc
  obtain ⟨c0, hc0, hceq⟩ := hc
  by_cases h0 : c0.id = j
  · rw [if_pos h0] at hceq
    subst hceq
    rfl
  · rw [if_neg h0] at hceq
    subst hceq
    exact h c0 hc0 hid

theorem pongEvent_self_alive (cs : List ClientConn) (i : Nat) :
    ∀ c ∈ pongEvent cs i, c.id = i → c.isAlive = true := by
  intro c hc hid
  simp only [pongEvent, List.mem_map] at hc
  obtain ⟨c0, hc0, hceq⟩ := hc
  by_cases h0 : c0.id = i
  · rw [if_pos h0] at hceq
    subst hceq
    rfl
  · rw [if_neg h0] at hceq
    subst hceq
    exact absurd hid h0

theorem pongFold_alive_preserve (ps : List Nat) (cs : List ClientConn)
    (i : Nat) (h : ∀ c ∈ cs, c.id = i → c.isAlive = true) :
    ∀ c ∈ ps.foldl pongEvent cs, c.id = i → c.isAlive = true := by
  induction ps generalizing cs with
  | nil => exact h
  | cons p ps ih =>
    rw [List.foldl_cons]
    exact ih _ (pongEvent_alive_preserve cs p i h)

theorem pongFold_alive (ps : List Nat) (cs : List ClientConn) (i : Nat)
    (hin : i ∈ ps) :
    ∀ c ∈ ps.foldl pongEvent cs, c.id = i → c.isAlive = true := by
  induction ps generalizing cs with
  | nil => cases hin
  | cons p ps ih =>
    rw [List.foldl_cons]
    by_cases hp : i ∈ ps
    · exact ih _ hp
    · have hpi : p = i := by
        rcases List.mem_cons.mp hin with h | h
        · exact h.symm
        · exact absurd h hp
      subst hpi
      exact pongFold_alive_preserve ps (pongEvent cs p) p
        (pongEvent_self_alive cs p)

theorem heartbeatTick_survivors_dead (cs : List ClientConn) :
    ∀ c ∈ (heartbeatTick cs).1, c.isAlive = false := by
  induction cs with
  | nil => intro c hc; cases hc
  | cons a rest ih =>
    intro c hc
    by_cases ha : a.isAlive = false
    · simp only [heartbeatTick, if_pos ha] at hc
      exact ih c hc
    · simp only [heartbeatTick, if_neg ha] at hc
      rcases List.mem_cons.mp hc with he | hm
      · subst he; rfl
      · exact ih c hm

theorem heartbeatTick_id_cases (cs : List ClientConn) (i : Nat)
    (h : hasId cs i = true) :
    hasId (heartbeatTick cs).1 i = true ∨ i ∈ (heartbeatTick cs).2 := by
  induction cs with
  | nil => simp [hasId] at h
  | cons a rest ih =>
    by_cases haid : a.id = i
    · by_cases hal : a.isAlive = false
      · right
        simp only [heartbeatTick, if_pos hal]
        exact List.mem_cons.mpr (Or.inl haid.symm)
      · left
        simp only [heartbeatTick, if_neg hal]
        simp [hasId, haid]
    · have hrest : hasId rest i = true := by
        have hh := h
        simp only [hasId, List.any_cons, Bool.or_eq_true] at hh
        rcases hh with hh | hh
        · exact absurd (by simpa using hh) haid
        · exact hh
      rcases ih hrest with hs | hr
      · left
        by_cases hal : a.isAlive = false
        · simp only [heartbeatTick, if_pos hal]
          exact hs
        · simp only [heartbeatTick, if_neg hal]
          simp only [hasId, List.any_cons, Bool.or_eq_true]
          exact Or.inr (by simpa [hasId] using hs)
      · right
        by_cases hal : a.isAlive = false
        · simp only [heartbeatTick, if_pos hal]
          exact List.mem_cons_of_mem _ hr
        · simp only [heartbeatTick, if_neg hal]
          exact hr

theorem heartbeatTick_dead_removed (cs : List ClientConn) (i : Nat)
    (h : ∀ c ∈ cs, c.id = i → c.isAlive = false) :
    hasId (heartbeatTick cs).1 i = false := by
  induction cs with
  | nil => rfl
  | cons a rest ih =>
    have hrest := ih (fun c hc => h c (List.mem_cons_of_mem a hc))
    by_cases ha : a.isAlive = false
    · simp only [heartbeatTick, if_pos ha]
      exact hrest
    · have haid : ¬ a.id = i :=
        fun hid => ha (h a (List.mem_cons_self a rest) hid)
      simp only [heartbeatTick, if_neg ha]
      simp only [hasId, List.any_cons, Bool.or_eq_false_iff]
      exact ⟨by simpa using haid, by simpa [hasId] using hrest⟩

theorem heartbeatTick_dead_reaped (cs : List ClientConn) (i : Nat)
    (h : ∀ c ∈ cs, c.id = i → c.isAlive = false)
    (hin : hasId cs i = true) :
    i ∈ (heartbeatTick cs).2 := by
  induction cs with
  | nil => simp [hasId] at hin
  | cons a rest ih =>
    by_cases haid : a.id = i
    · have hal : a.isAlive = false := h a (List.mem_cons_self a rest) haid
      simp only [heartbeatTick, if_pos hal]
      exact List.mem_cons.mpr (Or.inl haid.symm)
    · have hrest : hasId rest i = true := by
        have hh := hin
        simp only [hasId, List.any_cons, Bool.or_eq_true] at hh
        rcases hh with hh | hh
        · exact absurd (by simpa using hh) haid
        · exact hh
      have hmem := ih (fun c hc => h c (List.mem_cons_of_mem a hc)) hrest
      by_cases hal : a.isAlive = false
      · simp only [heartbeatTick, if_pos hal]
        exact List.mem_cons_of_mem _ hmem
      · simp only [heartbeatTick, if_neg hal]
        exact hmem

theorem heartbeatTick_alive_survives (cs : List ClientConn) (i : Nat)
    (h : ∀ c ∈ cs, c.id = i → c.isAlive = true)
    (hin : hasId cs i = true) :
    hasId (heartbeatTick cs).1 i = true := by
  induction cs with
  | nil => simp [hasId] at hin
  | cons a rest ih =>
    by_cases haid : a.id = i
    · have hal : a.isAlive = true := h a (List.mem_cons_self a rest) haid
      have hal' : ¬ a.isAlive = false := by simp [hal]
      simp only [heartbeatTick, if_neg hal']
      simp [hasId, haid]
    · have hrest : hasId rest i = true := by
        have hh := hin
        simp only [hasId, List.any_cons, Bool.or_eq_true] at hh
        rcases hh with hh | hh
        · exact absurd (by simpa using hh) haid
        · exact hh
      have hs := ih (fun c hc => h c (List.mem_cons_of_mem a hc)) hrest
      by_cases hal : a.isAlive = false
      · simp only [heartbeatTick, if_pos hal]
        exact hs
      · simp only [heartbeatTick, if_neg hal]
        simp only [hasId, List.any_cons, Bool.or_eq_true]
        exact Or.inr (by simpa [hasId] using hs)

theorem heartbeatTick_alive_not_reaped (cs : List ClientConn) (i : Nat)
    (h : ∀ c ∈ cs, c.id = i → c.isAlive = true) :
    i ∉ (heartbeatTick cs).2 := by
  induction cs with
  | nil => simp [heartbeatTick]
  | cons a rest ih =>
    have hrest := ih (fun c hc => h c (List.mem_cons_of_mem a hc))
    by_cases hal : a.isAlive = false
    · have haid : ¬ a.id = i := by
        intro hid
        have := h a (List.mem_cons_self a rest) hid
        rw [this] at hal
        cases hal
      simp only [heartbeatTick, if_pos hal]
      intro hmem
      rcases List.mem_cons.mp hmem with he | hm
      · exact haid he.symm
      · exact hrest hm
    · simp only [heartbeatTick, if_neg hal]
      exact hrest

theorem heartbeatTick_absent (cs : List ClientConn) (i : Nat)
    (h : hasId cs i = false) :
    hasId (heartbeatTick cs).1 i = false ∧ i ∉ (heartbeatTick cs).2 := by
  induction cs with
  | nil => exact ⟨rfl, by simp [heartbeatTick]⟩
  | cons a rest ih =>
    have hsplit : (a.id == i) = false ∧ hasId rest i = false := by
      have hh := h
      simp only [hasId, List.any_cons, Bool.or_eq_false_iff] at hh
      exact ⟨hh.1, by simpa [hasId] using hh.2⟩
    obtain ⟨haid, hrest⟩ := hsplit
    have haid' : ¬ a.id = i := by simpa using haid
    obtain ⟨ih1, ih2⟩ := ih hrest
    by_cases hal : a.isAlive = false
    · refine ⟨?_, ?_⟩
      · simp only [heartbeatTick, if_pos hal]
        exact ih1
      · simp only [heartbeatTick, if_pos hal]
        intro hmem
        rcases List.mem_cons.mp hmem with he | hm
        · exact haid' he.symm
        · exact ih2 hm
    · refine ⟨?_, ?_⟩
      · simp only [heartbeatTick, if_neg hal]
        simp only [hasId, List.any_cons, Bool.or_eq_false_iff]
        exact ⟨haid, by simpa [hasId] using ih1⟩
      · simp only [heartbeatTick, if_neg hal]
        exact ih2

theorem runHeartbeat_gone_stays (ivs : List (List Nat))
    (cs : List ClientConn) (t : List Nat) (i : Nat)
    (h : hasId cs i = false) :
    hasId (runHeartbeat cs t ivs).1 i = false := by
  induction ivs generalizing cs t with
  | nil => exact h
  | cons I ivs ih =>
    simp only [runHeartbeat]
    refine ih _ _ ?_
    have h2 : hasId (I.foldl pongEvent cs) i = false := by
      rw [hasId_pongFold]
      exact h
    exact (heartbeatTick_absent _ i h2).1

theorem runHeartbeat_term_stays (ivs : List (List Nat))
    (cs : List ClientConn) (t : List Nat) (i : Nat) (h : i ∈ t) :
    i ∈ (runHeartbeat cs t ivs).2 := by
  induction ivs generalizing cs t with
  | nil => exact h
  | cons I ivs ih =>
    simp only [runHeartbeat]
    exact ih _ _ (List.mem_append_left _ h)

theorem runHeartbeat_ponger_survives (ivs : List (List Nat))
    (cs : List ClientConn) (t : List Nat) (i : Nat)
    (hin : hasId cs i = true) (hterm : i ∉ t)
    (hall : ∀ I ∈ ivs, i ∈ I) :
    hasId (runHeartbeat cs t ivs).1 i = true ∧
      i ∉ (runHeartbeat cs t ivs).2 := by
  induction ivs generalizing cs t with
  | nil => exact ⟨hin, hterm⟩
  | cons I ivs ih =>
    have hI : i ∈ I := hall I (List.mem_cons_self I ivs)
    have halive := pongFold_alive I cs i hI
    have hid : hasId (I.foldl pongEvent cs) i = true := by
      rw [hasId_pongFold]
      exact hin
    have hs := heartbeatTick_alive_survives _ i halive hid
    have hnr := heartbeatTick_alive_not_reaped _ i halive
    simp only [runHeartbeat]
    refine ih _ _ hs ?_ (fun I2 hI2 => hall I2 (List.mem_cons_of_mem I hI2))
    intro hmem
    rcases List.mem_append.mp hmem with hm | hm
    · exact hterm hm
    · exact hnr hm

/-- C9: under the native-socket backend's heartbeat, a registered connection
that never answers a ping is terminated and out of the registry within two
heartbeat intervals — pinged and marked not-alive at the first tick,
terminated at the second, and never re-added afterwards — while a
connection that answers every ping with a pong before the next tick is
never terminated by the heartbeat and stays registered. -/
theorem c9_heartbeat_reaping (clients : List ClientConn)
    (terminated : List Nat) (i : Nat) (pongs1 pongs2 : List Nat)
    (rest : List (List Nat)) (hin : hasId clients i = true)
    (_h1 : i ∉ pongs1) (h2 : i ∉ pongs2) :
    (hasId (runHeartbeat clients terminated
        (pongs1 :: pongs2 :: rest)).1 i = false ∧
      i ∈ (runHeartbeat clients terminated (pongs1 :: pongs2 :: rest)).2) ∧
    (∀ intervals, (∀ I ∈ intervals, i ∈ I) → i ∉ terminated →
      hasId (runHeartbeat clients terminated intervals).1 i = true ∧
      i ∉ (runHeartbeat clients terminated intervals).2) := by
  constructor
  · have hrun : runHeartbeat clients terminated (pongs1 :: pongs2 :: rest) =
        runHeartbeat
          (heartbeatTick (pongs2.foldl pongEvent
            (heartbeatTick (pongs1.foldl pongEvent clients)).1)).1
          ((terminated ++
              (heartbeatTick (pongs1.foldl pongEvent clients)).2) ++
            (heartbeatTick (pongs2.foldl pongEvent
              (heartbeatTick (pongs1.foldl pongEvent clients)).1)).2)
          rest := by
      simp only [runHeartbeat]
    have hdead1 : ∀ c ∈ (heartbeatTick (pongs1.foldl pongEvent clients)).1,
        c.id = i → c.isAlive = false :=
      fun c hc _ => heartbeatTick_survivors_dead _ c hc
    have hdead2 : ∀ c ∈ pongs2.foldl pongEvent
        (heartbeatTick (pongs1.foldl pongEvent clients)).1,
        c.id = i → c.isAlive = false :=
      pongFold_dead_preserve pongs2 _ i h2 hdead1
    have hgone : hasId (heartbeatTick (pongs2.foldl pongEvent
        (heartbeatTick (pongs1.foldl pongEvent clients)).1)).1 i = false :=
      heartbeatTick_dead_removed _ i hdead2
    have hid1 : hasId (pongs1.foldl pongEvent clients) i = true := by
      rw [hasId_pongFold]
      exact hin
    constructor
    · rw [hrun]
      exact runHeartbeat_gone_stays rest _ _ i hgone
    · rw [hrun]
      rcases heartbeatTick_id_cases (pongs1.foldl pongEvent clients) i hid1
        with hs | hr
      · have hid2 : hasId (pongs2.foldl pongEvent
            (heartbeatTick (pongs1.foldl pongEvent clients)).1) i = true := by
          rw [hasId_pongFold]
          exact hs
        have hm := heartbeatTick_dead_reaped _ i hdead2 hid2
        exact runHeartbeat_term_stays rest _ _ i (List.mem_append_right _ hm)
      · exact runHeartbeat_term_stays rest _ _ i
          (List.mem_append_left _ (List.mem_append_right _ hr))
  · intro intervals hall hterm
    exact runHeartbeat_ponger_survives intervals clients terminated i hin
      hterm hall

/-- Witness for C9: connection 5 (alive, no pongs) is gone and terminated
after two ticks; connection 6, ponging in both intervals, survives both. -/
theorem c9_witness :
    (hasId (runHeartbeat [{ id := 5, readyState := 1, isAlive := true }]
        [] [[], []]).1 5 = false ∧
      5 ∈ (runHeartbeat [{ id := 5, readyState := 1, isAlive := true }]
        [] [[], []]).2) ∧
    (hasId (runHeartbeat [{ id := 6, readyState := 1, isAlive := true }]
        [] [[6], [6]]).1 6 = true ∧
      6 ∉ (runHeartbeat [{ id := 6, readyState := 1, isAlive := true }]
        [] [[6], [6]]).2) := by
  constructor
  · exact (c9_heartbeat_reaping
      [{ id := 5, readyState := 1, isAlive := true }] [] 5 [] [] []
      (by decide) (by simp) (by simp)).1
  · exact (c9_heartbeat_reaping
      [{ id := 6, readyState := 1, isAlive := true }] [] 6 [] [] []
      (by decide) (by simp) (by simp)).2 [[6], [6]]
      (by intro I hI; fin_cases hI <;> simp) (by simp)

end RDS
